import Mathlib

/-!
Verification development for the Tron-disk particle pipeline of this
repository (src/components/TronDisk/shaders.ts, DiskFrame.tsx).

The embedding models the mesh-sampler functions (samplePositions,
normalizePositions, generateFallbackSphere), the model-loading recovery
policy of useModelPositions, the material classification of GltfDisk,
and the per-frame rotation increments. Coordinates live in a linear
ordered field K, instantiated at ℚ for exact executable reasoning and at
ℝ where trigonometric functions are needed; every random source
(Math.random) is an explicit function argument with range [0,1).
-/

/-- A 3D point: one (x,y,z) triple of the flat position array. -/
structure Point3 (K : Type) where
  x : K
  y : K
  z : K
deriving DecidableEq

section MeshSampler

variable {K : Type} [LinearOrderedField K]

/-- Running minimum of a list of coordinates, seeded with an accumulator.
The JS loop seeds with Infinity; over a field we seed with the first
coordinate, which yields the same minimum on nonempty data. -/
def minList (a : K) : List K → K
  | [] => a
  | b :: l => minList (min a b) l

/-- Running maximum of a list of coordinates, seeded with an accumulator. -/
def maxList (a : K) : List K → K
  | [] => a
  | b :: l => maxList (max a b) l

/-- Minimum of one coordinate over a point list (0 on the empty list,
which the JS code never queries: an empty array yields an empty result). -/
def minsOn (f : Point3 K → K) : List (Point3 K) → K
  | [] => 0
  | p :: t => minList (f p) (t.map f)

/-- Maximum of one coordinate over a point list. -/
def maxsOn (f : Point3 K → K) : List (Point3 K) → K
  | [] => 0
  | p :: t => maxList (f p) (t.map f)

/-- Bounding-box centre, x coordinate: cx = (minX + maxX) / 2. -/
def bbcx (ps : List (Point3 K)) : K := (minsOn Point3.x ps + maxsOn Point3.x ps) / 2

/-- Bounding-box centre, y coordinate. -/
def bbcy (ps : List (Point3 K)) : K := (minsOn Point3.y ps + maxsOn Point3.y ps) / 2

/-- Bounding-box centre, z coordinate. -/
def bbcz (ps : List (Point3 K)) : K := (minsOn Point3.z ps + maxsOn Point3.z ps) / 2

/-- Largest of the three bounding-box spans:
Math.max(maxX - minX, maxY - minY, maxZ - minZ). -/
def maxExtent (ps : List (Point3 K)) : K :=
  max (maxsOn Point3.x ps - minsOn Point3.x ps)
    (max (maxsOn Point3.y ps - minsOn Point3.y ps)
      (maxsOn Point3.z ps - minsOn Point3.z ps))

/-- normalizePositions (shaders.ts): translate so the bounding-box centre
is at the origin and scale every coordinate by the single scalar
(targetRadius * 2) / maxExtent. -/
def normalizePositions (targetRadius : K) (ps : List (Point3 K)) : List (Point3 K) :=
  ps.map (fun p =>
    ⟨(p.x - bbcx ps) * ((targetRadius * 2) / maxExtent ps),
     (p.y - bbcy ps) * ((targetRadius * 2) / maxExtent ps),
     (p.z - bbcz ps) * ((targetRadius * 2) / maxExtent ps)⟩)

/-- The clamped source index chosen for stratum i by samplePositions:
Math.min(Math.floor(i * step + random * step), totalVertices - 1)
with step = totalVertices / maxCount. -/
def sampleIdx [FloorRing K] (total maxCount : ℕ) (rand : ℕ → K) (i : ℕ) : ℤ :=
  min ⌊(i : K) * ((total : K) / (maxCount : K)) + rand i * ((total : K) / (maxCount : K))⌋
    ((total : ℤ) - 1)

/-- samplePositions (shaders.ts): identity when the input has at most
maxCount points, otherwise one clamped stratified pick per stratum. -/
def samplePositions [FloorRing K] (ps : List (Point3 K)) (maxCount : ℕ)
    (rand : ℕ → K) : List (Point3 K) :=
  if ps.length ≤ maxCount then ps
  else (List.range maxCount).map
    (fun i => ps.getD (sampleIdx ps.length maxCount rand i).toNat ⟨0, 0, 0⟩)

end MeshSampler

/-- Bucket of origin of a source index, the spec notion used by the
coverage property: bucket j holds the source indices k with
j * step ≤ k < (j+1) * step, step = total / maxCount, so the bucket of k
is ⌊k / step⌋. -/
def bucketOf (total maxCount : ℕ) (k : ℤ) : ℤ :=
  ⌊(k : ℚ) / ((total : ℚ) / (maxCount : ℚ))⌋

-- ---------------------------------------------------------------------
-- Per-frame rotation increments (ParticleHead in shaders.ts, DiskFrame)
-- ---------------------------------------------------------------------

/-- Per-frame rotation update of the particle-head points node
(shaders.ts): rotation.y += rotationSpeed * 0.005. -/
def particleHeadRotationTick (rotationSpeed rotY : ℚ) : ℚ :=
  rotY + rotationSpeed * 0.005

/-- Per-frame rotation update of the disk-frame group (DiskFrame.tsx):
rotation.y += rotationSpeed * 0.005. -/
def diskFrameRotationTick (rotationSpeed rotY : ℚ) : ℚ :=
  rotY + rotationSpeed * 0.005

/-- Rotation of the head node after k frame callbacks. -/
def headRotationAfter (rotationSpeed rotY : ℚ) : ℕ → ℚ
  | 0 => rotY
  | k + 1 => particleHeadRotationTick rotationSpeed (headRotationAfter rotationSpeed rotY k)

/-- Rotation of the disk-frame group after k frame callbacks. -/
def diskRotationAfter (rotationSpeed rotY : ℚ) : ℕ → ℚ
  | 0 => rotY
  | k + 1 => diskFrameRotationTick rotationSpeed (diskRotationAfter rotationSpeed rotY k)

-- ---------------------------------------------------------------------
-- Claim C4
-- ---------------------------------------------------------------------

/-- C4: for every point set with at most maxCount points, samplePositions
returns the input unchanged, for every random source. -/
theorem C4_sample_small_identity {K : Type} [LinearOrderedField K] [FloorRing K]
    (ps : List (Point3 K)) (maxCount : ℕ) (rand : ℕ → K)
    (h : ps.length ≤ maxCount) :
    samplePositions ps maxCount rand = ps := by
  simp [samplePositions, h]

/-- Witness for C4 at a concrete one-point set and maxCount = 5. -/
theorem C4_sample_small_identity_witness :
    ([(⟨1, 2, 3⟩ : Point3 ℚ)]).length ≤ 5 ∧
      samplePositions [(⟨1, 2, 3⟩ : Point3 ℚ)] 5 (fun _ => 0) = [⟨1, 2, 3⟩] :=
  ⟨by decide, C4_sample_small_identity [⟨1, 2, 3⟩] 5 (fun _ => 0) (by decide)⟩

-- ---------------------------------------------------------------------
-- Claim C10
-- ---------------------------------------------------------------------

/-- C10: when the input is strictly larger than maxCount and the random
offsets are nonnegative, every source index computed by samplePositions
is clamped into [0, total - 1], so the embedded array read is in bounds
for every stratum. -/
theorem C10_sample_index_in_bounds {K : Type} [LinearOrderedField K] [FloorRing K]
    (ps : List (Point3 K)) (maxCount : ℕ) (rand : ℕ → K)
    (hlt : maxCount < ps.length) (hr : ∀ i, 0 ≤ rand i) (i : ℕ) :
    0 ≤ sampleIdx ps.length maxCount rand i ∧
      (sampleIdx ps.length maxCount rand i).toNat < ps.length := by
  have hstep : (0 : K) ≤ (ps.length : K) / (maxCount : K) :=
    div_nonneg (Nat.cast_nonneg _) (Nat.cast_nonneg _)
  have hval : (0 : K) ≤ (i : K) * ((ps.length : K) / (maxCount : K)) +
      rand i * ((ps.length : K) / (maxCount : K)) :=
    add_nonneg (mul_nonneg (Nat.cast_nonneg _) hstep) (mul_nonneg (hr i) hstep)
  have hfl : (0 : ℤ) ≤ ⌊(i : K) * ((ps.length : K) / (maxCount : K)) +
      rand i * ((ps.length : K) / (maxCount : K))⌋ := Int.floor_nonneg.mpr hval
  have hN : 1 ≤ ps.length := Nat.one_le_iff_ne_zero.mpr (by omega)
  have hlo : 0 ≤ sampleIdx ps.length maxCount rand i := by
    apply le_min hfl
    omega
  have hhi : sampleIdx ps.length maxCount rand i ≤ (ps.length : ℤ) - 1 :=
    min_le_right _ _
  exact ⟨hlo, by omega⟩

/-- Witness for C10 at a three-point set, maxCount = 2, zero offsets,
stratum 1. -/
theorem C10_sample_index_in_bounds_witness :
    2 < ([(⟨0, 0, 0⟩ : Point3 ℚ), ⟨1, 1, 1⟩, ⟨2, 2, 2⟩]).length ∧
      (∀ i : ℕ, (0 : ℚ) ≤ (fun _ => (0 : ℚ)) i) ∧
      (0 ≤ sampleIdx ([(⟨0, 0, 0⟩ : Point3 ℚ), ⟨1, 1, 1⟩, ⟨2, 2, 2⟩]).length 2 (fun _ => (0 : ℚ)) 1 ∧
        (sampleIdx ([(⟨0, 0, 0⟩ : Point3 ℚ), ⟨1, 1, 1⟩, ⟨2, 2, 2⟩]).length 2 (fun _ => (0 : ℚ)) 1).toNat <
          ([(⟨0, 0, 0⟩ : Point3 ℚ), ⟨1, 1, 1⟩, ⟨2, 2, 2⟩]).length) :=
  ⟨by decide, fun i => le_refl 0,
    C10_sample_index_in_bounds [⟨0, 0, 0⟩, ⟨1, 1, 1⟩, ⟨2, 2, 2⟩] 2 (fun _ => (0 : ℚ))
      (by decide) (fun i => le_refl 0) 1⟩

-- ---------------------------------------------------------------------
-- Claim C8
-- ---------------------------------------------------------------------

/-- C8: both the head particle cloud and the disk frame group advance
their Y rotation by rotationSpeed * 0.005 per frame callback, so after k
callbacks the rotation is the initial rotation plus
k * rotationSpeed * 0.005, independent of elapsed wall-clock time. -/
theorem C8_rotation_accumulation (rotationSpeed rotY : ℚ) (k : ℕ) :
    headRotationAfter rotationSpeed rotY k = rotY + (k : ℚ) * (rotationSpeed * 0.005) ∧
      diskRotationAfter rotationSpeed rotY k = rotY + (k : ℚ) * (rotationSpeed * 0.005) := by
  induction k with
  | zero => simp [headRotationAfter, diskRotationAfter]
  | succ n ih =>
    refine ⟨?_, ?_⟩
    · rw [headRotationAfter, particleHeadRotationTick, ih.1]
      push_cast
      ring
    · rw [diskRotationAfter, diskFrameRotationTick, ih.2]
      push_cast
      ring

-- ---------------------------------------------------------------------
-- Bounding-box lemmas for normalizePositions
-- ---------------------------------------------------------------------

section BoundingBox

variable {K : Type} [LinearOrderedField K]

theorem minList_le_init (a : K) (l : List K) : minList a l ≤ a := by
  induction l generalizing a with
  | nil => exact le_refl a
  | cons b t ih =>
    simp only [minList]
    exact le_trans (ih (min a b)) (min_le_left a b)

theorem minList_le_mem (a x : K) (l : List K) (hx : x ∈ l) : minList a l ≤ x := by
  induction l generalizing a with
  | nil => cases hx
  | cons b t ih =>
    simp only [minList]
    rcases List.mem_cons.mp hx with h | h
    · subst h
      exact le_trans (minList_le_init _ _) (min_le_right a x)
    · exact ih _ h

theorem le_maxList_init (a : K) (l : List K) : a ≤ maxList a l := by
  induction l generalizing a with
  | nil => exact le_refl a
  | cons b t ih =>
    simp only [maxList]
    exact le_trans (le_max_left a b) (ih (max a b))

theorem le_maxList_mem (a x : K) (l : List K) (hx : x ∈ l) : x ≤ maxList a l := by
  induction l generalizing a with
  | nil => cases hx
  | cons b t ih =>
    simp only [maxList]
    rcases List.mem_cons.mp hx with h | h
    · subst h
      exact le_trans (le_max_right a x) (le_maxList_init _ _)
    · exact ih _ h

theorem min_affine (a b c s : K) (hs : 0 ≤ s) :
    min ((a - c) * s) ((b - c) * s) = (min a b - c) * s := by
  rcases le_total a b with h | h
  · rw [min_eq_left h, min_eq_left (mul_le_mul_of_nonneg_right (sub_le_sub_right h c) hs)]
  · rw [min_eq_right h, min_eq_right (mul_le_mul_of_nonneg_right (sub_le_sub_right h c) hs)]

theorem max_affine (a b c s : K) (hs : 0 ≤ s) :
    max ((a - c) * s) ((b - c) * s) = (max a b - c) * s := by
  rcases le_total a b with h | h
  · rw [max_eq_right h, max_eq_right (mul_le_mul_of_nonneg_right (sub_le_sub_right h c) hs)]
  · rw [max_eq_left h, max_eq_left (mul_le_mul_of_nonneg_right (sub_le_sub_right h c) hs)]

theorem minList_affine (c s : K) (hs : 0 ≤ s) (a : K) (l : List K) :
    minList ((a - c) * s) (l.map (fun x => (x - c) * s)) = (minList a l - c) * s := by
  induction l generalizing a with
  | nil => rfl
  | cons b t ih =>
    simp only [List.map_cons, minList]
    rw [min_affine a b c s hs]
    exact ih (min a b)

theorem maxList_affine (c s : K) (hs : 0 ≤ s) (a : K) (l : List K) :
    maxList ((a - c) * s) (l.map (fun x => (x - c) * s)) = (maxList a l - c) * s := by
  induction l generalizing a with
  | nil => rfl
  | cons b t ih =>
    simp only [List.map_cons, maxList]
    rw [max_affine a b c s hs]
    exact ih (max a b)

theorem minsOn_le_mem (f : Point3 K → K) (p : Point3 K) (ps : List (Point3 K))
    (hp : p ∈ ps) : minsOn f ps ≤ f p := by
  cases ps with
  | nil => cases hp
  | cons q qs =>
    simp only [minsOn]
    rcases List.mem_cons.mp hp with h | h
    · subst h
      exact minList_le_init _ _
    · exact minList_le_mem _ _ _ (List.mem_map_of_mem f h)

theorem le_maxsOn_mem (f : Point3 K → K) (p : Point3 K) (ps : List (Point3 K))
    (hp : p ∈ ps) : f p ≤ maxsOn f ps := by
  cases ps with
  | nil => cases hp
  | cons q qs =>
    simp only [maxsOn]
    rcases List.mem_cons.mp hp with h | h
    · subst h
      exact le_maxList_init _ _
    · exact le_maxList_mem _ _ _ (List.mem_map_of_mem f h)

theorem minsOn_map_affine (f : Point3 K → K) (g : Point3 K → Point3 K) (c s : K)
    (hs : 0 ≤ s) (hfg : ∀ p, f (g p) = (f p - c) * s) (q : Point3 K)
    (qs : List (Point3 K)) :
    minsOn f ((q :: qs).map g) = (minsOn f (q :: qs) - c) * s := by
  have hcomp : f ∘ g = (fun x => (x - c) * s) ∘ f := by
    funext p
    exact hfg p
  simp only [List.map_cons, minsOn]
  rw [List.map_map, hcomp, ← List.map_map, hfg]
  exact minList_affine c s hs (f q) (qs.map f)

theorem maxsOn_map_affine (f : Point3 K → K) (g : Point3 K → Point3 K) (c s : K)
    (hs : 0 ≤ s) (hfg : ∀ p, f (g p) = (f p - c) * s) (q : Point3 K)
    (qs : List (Point3 K)) :
    maxsOn f ((q :: qs).map g) = (maxsOn f (q :: qs) - c) * s := by
  have hcomp : f ∘ g = (fun x => (x - c) * s) ∘ f := by
    funext p
    exact hfg p
  simp only [List.map_cons, maxsOn]
  rw [List.map_map, hcomp, ← List.map_map, hfg]
  exact maxList_affine c s hs (f q) (qs.map f)

theorem normalizePositions_eq_map (t : K) (ps : List (Point3 K)) :
    normalizePositions t ps = ps.map (fun p =>
      ⟨(p.x - bbcx ps) * (t * 2 / maxExtent ps),
       (p.y - bbcy ps) * (t * 2 / maxExtent ps),
       (p.z - bbcz ps) * (t * 2 / maxExtent ps)⟩) := rfl

theorem minsOn_normalize_x (t : K) (q : Point3 K) (qs : List (Point3 K))
    (hs : 0 ≤ t * 2 / maxExtent (q :: qs)) :
    minsOn Point3.x (normalizePositions t (q :: qs)) =
      (minsOn Point3.x (q :: qs) - bbcx (q :: qs)) * (t * 2 / maxExtent (q :: qs)) := by
  rw [normalizePositions_eq_map]
  exact minsOn_map_affine Point3.x _ _ _ hs (fun p => rfl) q qs

theorem maxsOn_normalize_x (t : K) (q : Point3 K) (qs : List (Point3 K))
    (hs : 0 ≤ t * 2 / maxExtent (q :: qs)) :
    maxsOn Point3.x (normalizePositions t (q :: qs)) =
      (maxsOn Point3.x (q :: qs) - bbcx (q :: qs)) * (t * 2 / maxExtent (q :: qs)) := by
  rw [normalizePositions_eq_map]
  exact maxsOn_map_affine Point3.x _ _ _ hs (fun p => rfl) q qs

theorem minsOn_normalize_y (t : K) (q : Point3 K) (qs : List (Point3 K))
    (hs : 0 ≤ t * 2 / maxExtent (q :: qs)) :
    minsOn Point3.y (normalizePositions t (q :: qs)) =
      (minsOn Point3.y (q :: qs) - bbcy (q :: qs)) * (t * 2 / maxExtent (q :: qs)) := by
  rw [normalizePositions_eq_map]
  exact minsOn_map_affine Point3.y _ _ _ hs (fun p => rfl) q qs

theorem maxsOn_normalize_y (t : K) (q : Point3 K) (qs : List (Point3 K))
    (hs : 0 ≤ t * 2 / maxExtent (q :: qs)) :
    maxsOn Point3.y (normalizePositions t (q :: qs)) =
      (maxsOn Point3.y (q :: qs) - bbcy (q :: qs)) * (t * 2 / maxExtent (q :: qs)) := by
  rw [normalizePositions_eq_map]
  exact maxsOn_map_affine Point3.y _ _ _ hs (fun p => rfl) q qs

theorem minsOn_normalize_z (t : K) (q : Point3 K) (qs : List (Point3 K))
    (hs : 0 ≤ t * 2 / maxExtent (q :: qs)) :
    minsOn Point3.z (normalizePositions t (q :: qs)) =
      (minsOn Point3.z (q :: qs) - bbcz (q :: qs)) * (t * 2 / maxExtent (q :: qs)) := by
  rw [normalizePositions_eq_map]
  exact minsOn_map_affine Point3.z _ _ _ hs (fun p => rfl) q qs

theorem maxsOn_normalize_z (t : K) (q : Point3 K) (qs : List (Point3 K))
    (hs : 0 ≤ t * 2 / maxExtent (q :: qs)) :
    maxsOn Point3.z (normalizePositions t (q :: qs)) =
      (maxsOn Point3.z (q :: qs) - bbcz (q :: qs)) * (t * 2 / maxExtent (q :: qs)) := by
  rw [normalizePositions_eq_map]
  exact maxsOn_map_affine Point3.z _ _ _ hs (fun p => rfl) q qs

theorem bbcx_normalize (t : K) (q : Point3 K) (qs : List (Point3 K))
    (hs : 0 ≤ t * 2 / maxExtent (q :: qs)) :
    bbcx (normalizePositions t (q :: qs)) = 0 := by
  show (minsOn Point3.x (normalizePositions t (q :: qs)) +
    maxsOn Point3.x (normalizePositions t (q :: qs))) / 2 = 0
  rw [minsOn_normalize_x t q qs hs, maxsOn_normalize_x t q qs hs]
  show ((minsOn Point3.x (q :: qs) - (minsOn Point3.x (q :: qs) + maxsOn Point3.x (q :: qs)) / 2) *
      (t * 2 / maxExtent (q :: qs)) +
    (maxsOn Point3.x (q :: qs) - (minsOn Point3.x (q :: qs) + maxsOn Point3.x (q :: qs)) / 2) *
      (t * 2 / maxExtent (q :: qs))) / 2 = 0
  ring

theorem bbcy_normalize (t : K) (q : Point3 K) (qs : List (Point3 K))
    (hs : 0 ≤ t * 2 / maxExtent (q :: qs)) :
    bbcy (normalizePositions t (q :: qs)) = 0 := by
  show (minsOn Point3.y (normalizePositions t (q :: qs)) +
    maxsOn Point3.y (normalizePositions t (q :: qs))) / 2 = 0
  rw [minsOn_normalize_y t q qs hs, maxsOn_normalize_y t q qs hs]
  show ((minsOn Point3.y (q :: qs) - (minsOn Point3.y (q :: qs) + maxsOn Point3.y (q :: qs)) / 2) *
      (t * 2 / maxExtent (q :: qs)) +
    (maxsOn Point3.y (q :: qs) - (minsOn Point3.y (q :: qs) + maxsOn Point3.y (q :: qs)) / 2) *
      (t * 2 / maxExtent (q :: qs))) / 2 = 0
  ring

theorem bbcz_normalize (t : K) (q : Point3 K) (qs : List (Point3 K))
    (hs : 0 ≤ t * 2 / maxExtent (q :: qs)) :
    bbcz (normalizePositions t (q :: qs)) = 0 := by
  show (minsOn Point3.z (normalizePositions t (q :: qs)) +
    maxsOn Point3.z (normalizePositions t (q :: qs))) / 2 = 0
  rw [minsOn_normalize_z t q qs hs, maxsOn_normalize_z t q qs hs]
  show ((minsOn Point3.z (q :: qs) - (minsOn Point3.z (q :: qs) + maxsOn Point3.z (q :: qs)) / 2) *
      (t * 2 / maxExtent (q :: qs)) +
    (maxsOn Point3.z (q :: qs) - (minsOn Point3.z (q :: qs) + maxsOn Point3.z (q :: qs)) / 2) *
      (t * 2 / maxExtent (q :: qs))) / 2 = 0
  ring

theorem affine_coord_sq_le (a mn mx E t s : K) (h1 : mn ≤ a) (h2 : a ≤ mx)
    (h3 : mx - mn ≤ E) (hE : 0 < E) (ht : 0 ≤ t) (hs : s = t * 2 / E) :
    ((a - (mn + mx) / 2) * s) ^ 2 ≤ t ^ 2 := by
  have hs0 : 0 ≤ s := by
    rw [hs]
    exact div_nonneg (by linarith) hE.le
  have h4 : E / 2 * s = t := by
    rw [hs]
    field_simp
    ring
  apply sq_le_sq'
  · have h5 := mul_le_mul_of_nonneg_right
      (show (mn + mx) / 2 - a ≤ E / 2 by linarith) hs0
    linarith [h5, h4]
  · have h5 := mul_le_mul_of_nonneg_right
      (show a - (mn + mx) / 2 ≤ E / 2 by linarith) hs0
    linarith [h5, h4]

end BoundingBox

-- ---------------------------------------------------------------------
-- Claim C2
-- ---------------------------------------------------------------------

/-- C2 counterexample: the claim asserts the normalized set fits within a
sphere of radius targetRadius; at the two-point set (0,0,0),(1,1,1) with
targetRadius 1.3 the output point (1.3,1.3,1.3) has squared distance
3 * 1.69 from the origin, which exceeds 1.69. -/
theorem C2_counterexample :
    ¬ ∀ p ∈ normalizePositions (1.3 : ℚ) [(⟨0, 0, 0⟩ : Point3 ℚ), ⟨1, 1, 1⟩],
        p.x ^ 2 + p.y ^ 2 + p.z ^ 2 ≤ (1.3 : ℚ) ^ 2 := by
  intro h
  have hmem : (⟨1.3, 1.3, 1.3⟩ : Point3 ℚ) ∈
      normalizePositions (1.3 : ℚ) [(⟨0, 0, 0⟩ : Point3 ℚ), ⟨1, 1, 1⟩] := by
    norm_num [normalizePositions, bbcx, bbcy, bbcz, maxExtent, minsOn, maxsOn,
      minList, maxList, min_def, max_def]
  have hle := h _ hmem
  norm_num at hle

/-- C2 (amended): normalizePositions translates the bounding-box centre to
the origin and scales by the single scalar (2 * targetRadius) / maxExtent,
so the output's bounding-box centre is the origin and every output point
lies within the sphere of radius sqrt 3 * targetRadius (each squared
distance is at most 3 * targetRadius ^ 2); it need not fit within radius
targetRadius itself. -/
theorem C2_normalize_center_and_bound {K : Type} [LinearOrderedField K]
    (t : K) (ps : List (Point3 K)) (ht : 0 ≤ t) (hE : 0 < maxExtent ps) :
    (∀ p ∈ normalizePositions t ps, p.x ^ 2 + p.y ^ 2 + p.z ^ 2 ≤ 3 * t ^ 2) ∧
      bbcx (normalizePositions t ps) = 0 ∧
      bbcy (normalizePositions t ps) = 0 ∧
      bbcz (normalizePositions t ps) = 0 := by
  cases ps with
  | nil =>
    exfalso
    simp [maxExtent, minsOn, maxsOn] at hE
  | cons q qs =>
    have hs : 0 ≤ t * 2 / maxExtent (q :: qs) := div_nonneg (by linarith) hE.le
    refine ⟨?_, bbcx_normalize t q qs hs, bbcy_normalize t q qs hs, bbcz_normalize t q qs hs⟩
    intro p hp
    rw [normalizePositions_eq_map] at hp
    obtain ⟨p0, hp0, rfl⟩ := List.mem_map.mp hp
    have h3x : maxsOn Point3.x (q :: qs) - minsOn Point3.x (q :: qs) ≤ maxExtent (q :: qs) :=
      le_max_left _ _
    have h3y : maxsOn Point3.y (q :: qs) - minsOn Point3.y (q :: qs) ≤ maxExtent (q :: qs) :=
      le_trans (le_max_left _ _) (le_max_right _ _)
    have h3z : maxsOn Point3.z (q :: qs) - minsOn Point3.z (q :: qs) ≤ maxExtent (q :: qs) :=
      le_trans (le_max_right _ _) (le_max_right _ _)
    have hx := affine_coord_sq_le p0.x (minsOn Point3.x (q :: qs)) (maxsOn Point3.x (q :: qs))
      (maxExtent (q :: qs)) t (t * 2 / maxExtent (q :: qs))
      (minsOn_le_mem Point3.x p0 _ hp0) (le_maxsOn_mem Point3.x p0 _ hp0) h3x hE ht rfl
    have hy := affine_coord_sq_le p0.y (minsOn Point3.y (q :: qs)) (maxsOn Point3.y (q :: qs))
      (maxExtent (q :: qs)) t (t * 2 / maxExtent (q :: qs))
      (minsOn_le_mem Point3.y p0 _ hp0) (le_maxsOn_mem Point3.y p0 _ hp0) h3y hE ht rfl
    have hz := affine_coord_sq_le p0.z (minsOn Point3.z (q :: qs)) (maxsOn Point3.z (q :: qs))
      (maxExtent (q :: qs)) t (t * 2 / maxExtent (q :: qs))
      (minsOn_le_mem Point3.z p0 _ hp0) (le_maxsOn_mem Point3.z p0 _ hp0) h3z hE ht rfl
    show ((p0.x - (minsOn Point3.x (q :: qs) + maxsOn Point3.x (q :: qs)) / 2) *
        (t * 2 / maxExtent (q :: qs))) ^ 2 +
      ((p0.y - (minsOn Point3.y (q :: qs) + maxsOn Point3.y (q :: qs)) / 2) *
        (t * 2 / maxExtent (q :: qs))) ^ 2 +
      ((p0.z - (minsOn Point3.z (q :: qs) + maxsOn Point3.z (q :: qs)) / 2) *
        (t * 2 / maxExtent (q :: qs))) ^ 2 ≤ 3 * t ^ 2
    linarith [hx, hy, hz]

/-- Witness for C2 at the two-point set (0,0,0),(1,1,1) and targetRadius 1.3. -/
theorem C2_normalize_center_and_bound_witness :
    (0 : ℚ) ≤ 1.3 ∧ 0 < maxExtent [(⟨0, 0, 0⟩ : Point3 ℚ), ⟨1, 1, 1⟩] ∧
      ((∀ p ∈ normalizePositions (1.3 : ℚ) [(⟨0, 0, 0⟩ : Point3 ℚ), ⟨1, 1, 1⟩],
          p.x ^ 2 + p.y ^ 2 + p.z ^ 2 ≤ 3 * (1.3 : ℚ) ^ 2) ∧
        bbcx (normalizePositions (1.3 : ℚ) [(⟨0, 0, 0⟩ : Point3 ℚ), ⟨1, 1, 1⟩]) = 0 ∧
        bbcy (normalizePositions (1.3 : ℚ) [(⟨0, 0, 0⟩ : Point3 ℚ), ⟨1, 1, 1⟩]) = 0 ∧
        bbcz (normalizePositions (1.3 : ℚ) [(⟨0, 0, 0⟩ : Point3 ℚ), ⟨1, 1, 1⟩]) = 0) :=
  ⟨by norm_num,
    by norm_num [maxExtent, minsOn, maxsOn, minList, maxList, min_def, max_def],
    C2_normalize_center_and_bound (1.3 : ℚ) [⟨0, 0, 0⟩, ⟨1, 1, 1⟩] (by norm_num)
      (by norm_num [maxExtent, minsOn, maxsOn, minList, maxList, min_def, max_def])⟩

-- ---------------------------------------------------------------------
-- Claim C9
-- ---------------------------------------------------------------------

/-- C9: normalizePositions is idempotent in exact arithmetic: when the
bounding box has positive maximum extent and targetRadius is positive,
a second application with the same targetRadius is the identity, because
after one pass the bounding-box centre is the origin and the maximum
extent equals 2 * targetRadius. -/
theorem C9_normalize_idempotent {K : Type} [LinearOrderedField K]
    (t : K) (ps : List (Point3 K)) (ht : 0 < t) (hE : 0 < maxExtent ps) :
    normalizePositions t (normalizePositions t ps) = normalizePositions t ps := by
  cases ps with
  | nil =>
    exfalso
    simp [maxExtent, minsOn, maxsOn] at hE
  | cons q qs =>
    have hs : 0 ≤ t * 2 / maxExtent (q :: qs) := div_nonneg (by linarith) hE.le
    have hEne : maxExtent (q :: qs) ≠ 0 := ne_of_gt hE
    have espx : maxsOn Point3.x (normalizePositions t (q :: qs)) -
        minsOn Point3.x (normalizePositions t (q :: qs)) =
        (maxsOn Point3.x (q :: qs) - minsOn Point3.x (q :: qs)) *
          (t * 2 / maxExtent (q :: qs)) := by
      rw [minsOn_normalize_x t q qs hs, maxsOn_normalize_x t q qs hs]
      ring
    have espy : maxsOn Point3.y (normalizePositions t (q :: qs)) -
        minsOn Point3.y (normalizePositions t (q :: qs)) =
        (maxsOn Point3.y (q :: qs) - minsOn Point3.y (q :: qs)) *
          (t * 2 / maxExtent (q :: qs)) := by
      rw [minsOn_normalize_y t q qs hs, maxsOn_normalize_y t q qs hs]
      ring
    have espz : maxsOn Point3.z (normalizePositions t (q :: qs)) -
        minsOn Point3.z (normalizePositions t (q :: qs)) =
        (maxsOn Point3.z (q :: qs) - minsOn Point3.z (q :: qs)) *
          (t * 2 / maxExtent (q :: qs)) := by
      rw [minsOn_normalize_z t q qs hs, maxsOn_normalize_z t q qs hs]
      ring
    have hExt : maxExtent (normalizePositions t (q :: qs)) = t * 2 := by
      show max (maxsOn Point3.x (normalizePositions t (q :: qs)) -
          minsOn Point3.x (normalizePositions t (q :: qs)))
        (max (maxsOn Point3.y (normalizePositions t (q :: qs)) -
          minsOn Point3.y (normalizePositions t (q :: qs)))
          (maxsOn Point3.z (normalizePositions t (q :: qs)) -
            minsOn Point3.z (normalizePositions t (q :: qs)))) = t * 2
      rw [espx, espy, espz, ← max_mul_of_nonneg _ _ hs, ← max_mul_of_nonneg _ _ hs]
      show maxExtent (q :: qs) * (t * 2 / maxExtent (q :: qs)) = t * 2
      field_simp
    have hscale : t * 2 / maxExtent (normalizePositions t (q :: qs)) = 1 := by
      rw [hExt]
      exact div_self (by positivity)
    rw [normalizePositions_eq_map t (normalizePositions t (q :: qs))]
    simp only [bbcx_normalize t q qs hs, bbcy_normalize t q qs hs, bbcz_normalize t q qs hs,
      hscale, sub_zero, mul_one]
    have heta : (fun p : Point3 K => (⟨p.x, p.y, p.z⟩ : Point3 K)) = fun p => p := by
      funext p
      rfl
    rw [heta]
    simp

/-- Witness for C9 at the two-point set (0,0,0),(1,1,1) and targetRadius 1.3. -/
theorem C9_normalize_idempotent_witness :
    (0 : ℚ) < 1.3 ∧ 0 < maxExtent [(⟨0, 0, 0⟩ : Point3 ℚ), ⟨1, 1, 1⟩] ∧
      normalizePositions (1.3 : ℚ)
          (normalizePositions (1.3 : ℚ) [(⟨0, 0, 0⟩ : Point3 ℚ), ⟨1, 1, 1⟩]) =
        normalizePositions (1.3 : ℚ) [(⟨0, 0, 0⟩ : Point3 ℚ), ⟨1, 1, 1⟩] :=
  ⟨by norm_num,
    by norm_num [maxExtent, minsOn, maxsOn, minList, maxList, min_def, max_def],
    C9_normalize_idempotent (1.3 : ℚ) [⟨0, 0, 0⟩, ⟨1, 1, 1⟩] (by norm_num)
      (by norm_num [maxExtent, minsOn, maxsOn, minList, maxList, min_def, max_def])⟩

-- ---------------------------------------------------------------------
-- Claim C1
-- ---------------------------------------------------------------------

/-- C1 counterexample: with 3 input points and maxCount = 2 (fractional
step 3/2) and all random offsets 0 (a valid choice in [0,1)), the two
sampled source indices are 0 and 1, and both originate in bucket 0, so
the sampled indices do not recover every bucket exactly once. -/
theorem C1_counterexample :
    2 < 3 ∧ (∀ i : ℕ, (0 : ℚ) ≤ (fun _ => (0 : ℚ)) i ∧ (fun _ => (0 : ℚ)) i < 1) ∧
      bucketOf 3 2 (sampleIdx 3 2 (fun _ => (0 : ℚ)) 0) = 0 ∧
      bucketOf 3 2 (sampleIdx 3 2 (fun _ => (0 : ℚ)) 1) = 0 := by
  have h0 : sampleIdx 3 2 (fun _ => (0 : ℚ)) 0 = 0 := by
    simp only [sampleIdx]
    norm_num
  have hfl : ⌊(3 / 2 : ℚ)⌋ = 1 := by
    rw [Int.floor_eq_iff]
    norm_num
  have h1 : sampleIdx 3 2 (fun _ => (0 : ℚ)) 1 = 1 := by
    simp only [sampleIdx]
    norm_num [hfl, min_def]
  have hb0 : bucketOf 3 2 0 = 0 := by
    simp only [bucketOf]
    norm_num
  have hb1 : bucketOf 3 2 1 = 0 := by
    simp only [bucketOf]
    push_cast
    rw [show (1 : ℚ) / ((3 : ℚ) / (2 : ℚ)) = 2 / 3 by norm_num]
    rw [Int.floor_eq_zero_iff]
    constructor
    · norm_num
    · norm_num
  exact ⟨by norm_num, fun i => ⟨le_refl 0, by norm_num⟩, by rw [h0]; exact hb0,
    by rw [h1]; exact hb1⟩

/-- C1 (amended): when maxCount divides the input size (step is an
integer), stratified sampling has the claimed coverage: for every choice
of random offsets in [0,1), samplePositions returns exactly maxCount
points and the source index of stratum i originates in bucket i, so each
bucket is recovered exactly once. For fractional step a stratum's index
can fall into the previous bucket (see the counterexample). -/
theorem C1_sample_bucket_coverage (ps : List (Point3 ℚ)) (maxCount : ℕ) (rand : ℕ → ℚ)
    (hdvd : maxCount ∣ ps.length) (hlt : maxCount < ps.length)
    (hr : ∀ i, 0 ≤ rand i ∧ rand i < 1) :
    (samplePositions ps maxCount rand).length = maxCount ∧
      ∀ i, i < maxCount →
        bucketOf ps.length maxCount (sampleIdx ps.length maxCount rand i) = i := by
  obtain ⟨s, hN⟩ := hdvd
  have hpos : 0 < maxCount := by
    rcases Nat.eq_zero_or_pos maxCount with h | h
    · subst h
      rw [Nat.zero_mul] at hN
      omega
    · exact h
  have hs1 : 1 < s := by
    have h1 : maxCount * 1 < maxCount * s := by
      rw [Nat.mul_one, ← hN]
      exact hlt
    exact lt_of_mul_lt_mul_left h1 (Nat.zero_le _)
  have hm0 : (0 : ℚ) < (maxCount : ℚ) := by exact_mod_cast hpos
  have hsQpos : (0 : ℚ) < (s : ℚ) := by
    have : 0 < s := by omega
    exact_mod_cast this
  have hstep : ((ps.length : ℚ)) / (maxCount : ℚ) = (s : ℚ) := by
    rw [hN]
    push_cast
    rw [mul_comm]
    exact mul_div_cancel_right₀ _ (ne_of_gt hm0)
  constructor
  · simp only [samplePositions]
    rw [if_neg (not_le.mpr hlt)]
    simp
  intro i hi
  have hj0 : 0 ≤ ⌊rand i * (s : ℚ)⌋ := Int.floor_nonneg.mpr (mul_nonneg (hr i).1 hsQpos.le)
  have hjle : ⌊rand i * (s : ℚ)⌋ ≤ (s : ℤ) - 1 := by
    have h1 : rand i * (s : ℚ) < (s : ℚ) := by
      nlinarith [(hr i).2, hsQpos]
    have h2 : ⌊rand i * (s : ℚ)⌋ < ((s : ℤ) : ℚ) := lt_of_le_of_lt (Int.floor_le _) (by push_cast; exact h1)
    have h3 : ⌊rand i * (s : ℚ)⌋ < (s : ℤ) := by exact_mod_cast h2
    omega
  have hfloor : ⌊(i : ℚ) * ((ps.length : ℚ) / (maxCount : ℚ)) +
      rand i * ((ps.length : ℚ) / (maxCount : ℚ))⌋ =
      (i : ℤ) * (s : ℤ) + ⌊rand i * (s : ℚ)⌋ := by
    rw [hstep]
    have hcast : (i : ℚ) * (s : ℚ) = (((i : ℤ) * (s : ℤ) : ℤ) : ℚ) := by
      push_cast
      ring
    rw [add_comm, hcast, Int.floor_add_int]
    ring
  have hNZ : (ps.length : ℤ) = (maxCount : ℤ) * (s : ℤ) := by exact_mod_cast hN
  have hle : (i : ℤ) * (s : ℤ) + ⌊rand i * (s : ℚ)⌋ ≤ (ps.length : ℤ) - 1 := by
    have hiZ : (i : ℤ) ≤ (maxCount : ℤ) - 1 := by
      have : (i : ℤ) < (maxCount : ℤ) := by exact_mod_cast hi
      omega
    have hsZ : (0 : ℤ) ≤ (s : ℤ) := by exact_mod_cast Nat.zero_le s
    have hmul : (i : ℤ) * (s : ℤ) ≤ ((maxCount : ℤ) - 1) * (s : ℤ) :=
      mul_le_mul_of_nonneg_right hiZ hsZ
    have hexp : ((maxCount : ℤ) - 1) * (s : ℤ) = (maxCount : ℤ) * (s : ℤ) - (s : ℤ) := by
      ring
    rw [hNZ]
    have hs1Z : (1 : ℤ) ≤ (s : ℤ) := by exact_mod_cast Nat.one_le_iff_ne_zero.mpr (by omega)
    linarith [hmul, hexp, hjle]
  have hmin : sampleIdx ps.length maxCount rand i = (i : ℤ) * (s : ℤ) + ⌊rand i * (s : ℚ)⌋ := by
    simp only [sampleIdx]
    rw [hfloor]
    exact min_eq_left hle
  rw [hmin]
  simp only [bucketOf]
  rw [hstep]
  have hdivcast : ((((i : ℤ) * (s : ℤ) + ⌊rand i * (s : ℚ)⌋ : ℤ)) : ℚ) / (s : ℚ) =
      ((⌊rand i * (s : ℚ)⌋ : ℚ)) / (s : ℚ) + ((i : ℤ) : ℚ) := by
    push_cast
    field_simp
    ring
  rw [hdivcast, Int.floor_add_int]
  have hz : ⌊((⌊rand i * (s : ℚ)⌋ : ℚ)) / (s : ℚ)⌋ = 0 := by
    rw [Int.floor_eq_zero_iff]
    constructor
    · exact div_nonneg (by exact_mod_cast hj0) hsQpos.le
    · rw [div_lt_one hsQpos]
      have : ⌊rand i * (s : ℚ)⌋ < (s : ℤ) := by omega
      exact_mod_cast this
  rw [hz]
  simp

/-- Witness for C1 at a four-point set, maxCount = 2 (step 2), zero
offsets. -/
theorem C1_sample_bucket_coverage_witness :
    (2 ∣ ([(⟨0, 0, 0⟩ : Point3 ℚ), ⟨1, 1, 1⟩, ⟨2, 2, 2⟩, ⟨3, 3, 3⟩]).length) ∧
      2 < ([(⟨0, 0, 0⟩ : Point3 ℚ), ⟨1, 1, 1⟩, ⟨2, 2, 2⟩, ⟨3, 3, 3⟩]).length ∧
      (∀ i : ℕ, (0 : ℚ) ≤ (fun _ => (0 : ℚ)) i ∧ (fun _ => (0 : ℚ)) i < 1) ∧
      ((samplePositions [(⟨0, 0, 0⟩ : Point3 ℚ), ⟨1, 1, 1⟩, ⟨2, 2, 2⟩, ⟨3, 3, 3⟩] 2
          (fun _ => (0 : ℚ))).length = 2 ∧
        ∀ i, i < 2 →
          bucketOf ([(⟨0, 0, 0⟩ : Point3 ℚ), ⟨1, 1, 1⟩, ⟨2, 2, 2⟩, ⟨3, 3, 3⟩]).length 2
            (sampleIdx ([(⟨0, 0, 0⟩ : Point3 ℚ), ⟨1, 1, 1⟩, ⟨2, 2, 2⟩, ⟨3, 3, 3⟩]).length 2
              (fun _ => (0 : ℚ)) i) = i) :=
  ⟨by decide, by decide, fun i => ⟨le_refl 0, by norm_num⟩,
    C1_sample_bucket_coverage [⟨0, 0, 0⟩, ⟨1, 1, 1⟩, ⟨2, 2, 2⟩, ⟨3, 3, 3⟩] 2 (fun _ => (0 : ℚ))
      (by decide) (by decide) (fun i => ⟨le_refl 0, by norm_num⟩)⟩

-- ---------------------------------------------------------------------
-- Material classification (GltfDisk in DiskFrame.tsx)
-- ---------------------------------------------------------------------

/-- Face-culling setting of a Three.js material (THREE.FrontSide,
THREE.BackSide, THREE.DoubleSide). -/
inductive Side
  | front
  | back
  | double
deriving DecidableEq

/-- The fields of a loaded sub-mesh material that the classification in
GltfDisk reads: base color, emissive channels, transparency flag,
opacity, face-culling side. -/
structure SourceMaterial where
  color : Point3 ℚ
  emissive : Point3 ℚ
  transparent : Bool
  opacity : ℚ
  side : Side
deriving DecidableEq

/-- The fields of the replacement material produced by GltfDisk that the
classification claim observes: the glow/body classification and the
transparency, opacity, and face-culling settings carried over. -/
structure ReplacedMaterial where
  isGlow : Bool
  transparent : Bool
  opacity : ℚ
  side : Side
deriving DecidableEq

/-- Luminance of a base color: r * 0.299 + g * 0.587 + b * 0.114. -/
def luminance (c : Point3 ℚ) : ℚ := c.x * 0.299 + c.y * 0.587 + c.z * 0.114

/-- Sum of the emissive channels. -/
def emissiveSum (c : Point3 ℚ) : ℚ := c.x + c.y + c.z

/-- The material replacement of GltfDisk: glow edge when
luminance > 0.5 or the emissive channel sum exceeds 0.1 (unlit glow
material keeping the source opacity and side, with
transparent = oldTransparent || opacity < 1); otherwise dark body
material with opacity capped by Math.min(opacity, 0.95) and the same
transparent/side handling. -/
def replaceMaterial (m : SourceMaterial) : ReplacedMaterial :=
  if luminance m.color > 0.5 ∨ emissiveSum m.emissive > 0.1 then
    ⟨true, m.transparent || decide (m.opacity < 1), m.opacity, m.side⟩
  else
    ⟨false, m.transparent || decide (m.opacity < 1), min m.opacity 0.95, m.side⟩

/-- A white, non-emissive, opaque-flagged material with fractional
opacity: its replacement is classified glow but gets a transparency flag
different from the original. -/
def c5mat : SourceMaterial := ⟨⟨1, 1, 1⟩, ⟨0, 0, 0⟩, false, 1 / 2, Side.front⟩

-- ---------------------------------------------------------------------
-- Claim C5
-- ---------------------------------------------------------------------

/-- C5 counterexample: the claim says glow replacements preserve the
original transparency setting; for the white material with
transparent = false and opacity 1/2 the replacement is glow yet its
transparent flag is true, not the original false. -/
theorem C5_counterexample :
    (replaceMaterial c5mat).isGlow = true ∧
      (replaceMaterial c5mat).transparent = true ∧ c5mat.transparent = false := by
  have hcond : luminance c5mat.color > 0.5 ∨ emissiveSum c5mat.emissive > 0.1 := by
    left
    norm_num [luminance, c5mat]
  refine ⟨?_, ?_, rfl⟩
  · simp only [replaceMaterial, if_pos hcond]
  · simp only [replaceMaterial, if_pos hcond]
    simp [c5mat]
    norm_num

/-- C5 (amended): a sub-mesh material is classified glow iff its base
color luminance exceeds 0.5 or its emissive channel sum exceeds 0.1
(white is glow, black non-emissive is body, emissive overrides
luminance); glow replacements preserve opacity and face culling, body
replacements cap opacity at 0.95 and preserve face culling, and both
set the transparent flag to the original flag OR (opacity < 1) rather
than preserving it. -/
theorem C5_material_classification (m : SourceMaterial) :
    ((replaceMaterial m).isGlow = true ↔
        luminance m.color > 0.5 ∨ emissiveSum m.emissive > 0.1) ∧
      (m.color = ⟨1, 1, 1⟩ → (replaceMaterial m).isGlow = true) ∧
      (m.color = ⟨0, 0, 0⟩ ∧ emissiveSum m.emissive ≤ 0.1 →
        (replaceMaterial m).isGlow = false) ∧
      (emissiveSum m.emissive > 0.1 → (replaceMaterial m).isGlow = true) ∧
      ((replaceMaterial m).isGlow = true →
        (replaceMaterial m).opacity = m.opacity ∧ (replaceMaterial m).side = m.side) ∧
      ((replaceMaterial m).isGlow = false →
        (replaceMaterial m).opacity = min m.opacity 0.95 ∧
          (replaceMaterial m).side = m.side) ∧
      (replaceMaterial m).transparent = (m.transparent || decide (m.opacity < 1)) := by
  by_cases h : luminance m.color > 0.5 ∨ emissiveSum m.emissive > 0.1
  · have e : replaceMaterial m =
        ⟨true, m.transparent || decide (m.opacity < 1), m.opacity, m.side⟩ := by
      simp only [replaceMaterial, if_pos h]
    rw [e]
    refine ⟨by simp [h], fun _ => by simp, ?_, fun _ => by simp, fun _ => by simp,
      by simp, by simp⟩
    rintro ⟨hcol, hem⟩
    exfalso
    rcases h with h | h
    · rw [hcol] at h
      norm_num [luminance] at h
    · exact absurd h (not_lt.mpr hem)
  · have e : replaceMaterial m =
        ⟨false, m.transparent || decide (m.opacity < 1), min m.opacity 0.95, m.side⟩ := by
      simp only [replaceMaterial, if_neg h]
    rw [e]
    push_neg at h
    obtain ⟨h1, h2⟩ := h
    refine ⟨?_, ?_, fun _ => by simp, ?_, ?_, fun _ => by simp, by simp⟩
    · simp
      exact ⟨h1, h2⟩
    · intro hcol
      exfalso
      rw [hcol] at h1
      norm_num [luminance] at h1
    · intro hem
      exact absurd hem (not_lt.mpr h2)
    · intro hg
      exfalso
      simp at hg

/-- Witness for C5: applying the classification theorem at the concrete
white material shows it is glow and keeps opacity and side. -/
theorem C5_material_classification_witness :
    (replaceMaterial c5mat).isGlow = true ∧
      (replaceMaterial c5mat).opacity = c5mat.opacity ∧
      (replaceMaterial c5mat).side = c5mat.side := by
  have T := C5_material_classification c5mat
  have hglow : (replaceMaterial c5mat).isGlow = true := T.2.1 rfl
  exact ⟨hglow, (T.2.2.2.2.1 hglow).1, (T.2.2.2.2.1 hglow).2⟩

-- ---------------------------------------------------------------------
-- Fallback sphere and the model-loading recovery policy (shaders.ts)
-- ---------------------------------------------------------------------

/-- One point of generateFallbackSphere: Fibonacci-sphere angles
phi = acos(1 - 2(i+0.5)/count), theta = pi*(1+sqrt 5)*i, radius
1.2 + (random - 0.5) * 0.3. -/
noncomputable def fallbackPoint (count : ℕ) (rand : ℕ → ℝ) (i : ℕ) : Point3 ℝ :=
  ⟨(1.2 + (rand i - 0.5) * 0.3) *
      Real.sin (Real.arccos (1 - 2 * ((i : ℝ) + 0.5) / (count : ℝ))) *
      Real.cos (Real.pi * (1 + Real.sqrt 5) * (i : ℝ)),
    (1.2 + (rand i - 0.5) * 0.3) *
      Real.sin (Real.arccos (1 - 2 * ((i : ℝ) + 0.5) / (count : ℝ))) *
      Real.sin (Real.pi * (1 + Real.sqrt 5) * (i : ℝ)),
    (1.2 + (rand i - 0.5) * 0.3) *
      Real.cos (Real.arccos (1 - 2 * ((i : ℝ) + 0.5) / (count : ℝ)))⟩

/-- generateFallbackSphere (shaders.ts): count Fibonacci-sphere points. -/
noncomputable def generateFallbackSphere (count : ℕ) (rand : ℕ → ℝ) : List (Point3 ℝ) :=
  (List.range count).map (fallbackPoint count rand)

/-- Result of the asynchronous loader dispatched by useModelPositions:
either the error callback fires, or the success callback receives a
scene from which extractPositions pulls the (possibly empty) list of
positions. -/
inductive LoadOutcome
  | failure
  | success (raw : List (Point3 ℝ))

/-- The file extensions with a registered loader in useModelPositions. -/
def supportedExts : List String := ["obj", "ply", "glb", "gltf"]

/-- Extension extraction of useModelPositions:
modelPath.split(".").pop()?.toLowerCase(). -/
def extOf (path : String) : String :=
  (((path.splitOn (".")).getLast?).getD ("")).toLower

/-- What a run of the useModelPositions effect produces: whether a
warning was logged, whether a loader was dispatched, and the point set
handed to the renderer. -/
structure ResolveOutcome where
  warned : Bool
  dispatched : Bool
  positions : List (Point3 ℝ)

/-- The useModelPositions effect (shaders.ts): no path means the
fallback sphere with no load; an unsupported extension warns and falls
back before any load; a dispatched load that fails, or succeeds with no
position data, warns and falls back; otherwise the raw positions are
sampled down to particleCount and normalized (target radius 1.3). -/
noncomputable def useModelPositions (modelPath : Option String) (particleCount : ℕ)
    (rand sphereRand : ℕ → ℝ) (outcome : LoadOutcome) : ResolveOutcome :=
  match modelPath with
  | none => ⟨false, false, generateFallbackSphere particleCount sphereRand⟩
  | some path =>
    if extOf path ∈ supportedExts then
      match outcome with
      | LoadOutcome.failure => ⟨true, true, generateFallbackSphere particleCount sphereRand⟩
      | LoadOutcome.success raw =>
        if raw.length > 0 then
          ⟨false, true, normalizePositions 1.3 (samplePositions raw particleCount rand)⟩
        else ⟨true, true, generateFallbackSphere particleCount sphereRand⟩
    else ⟨true, false, generateFallbackSphere particleCount sphereRand⟩

-- ---------------------------------------------------------------------
-- Claim C3
-- ---------------------------------------------------------------------

/-- C3: generateFallbackSphere returns exactly count points with the
Fibonacci-sphere angles, and every point's distance from the origin lies
within [0.85 * 1.2, 1.15 * 1.2] of the base radius 1.2 (the actual
perturbation is the narrower 1.2 plus or minus 0.15). -/
theorem C3_fallback_count_and_radius (count : ℕ) (rand : ℕ → ℝ)
    (hc : 0 < count) (hr : ∀ i, 0 ≤ rand i ∧ rand i < 1) :
    (generateFallbackSphere count rand).length = count ∧
      ∀ p ∈ generateFallbackSphere count rand,
        0.85 * 1.2 ≤ Real.sqrt (p.x ^ 2 + p.y ^ 2 + p.z ^ 2) ∧
          Real.sqrt (p.x ^ 2 + p.y ^ 2 + p.z ^ 2) ≤ 1.15 * 1.2 := by
  constructor
  · simp [generateFallbackSphere]
  intro p hp
  simp only [generateFallbackSphere, List.mem_map, List.mem_range] at hp
  obtain ⟨i, hi, rfl⟩ := hp
  have hr1 : (1.05 : ℝ) ≤ 1.2 + (rand i - 0.5) * 0.3 := by nlinarith [(hr i).1]
  have hr2 : (1.2 : ℝ) + (rand i - 0.5) * 0.3 ≤ 1.35 := by nlinarith [(hr i).2]
  have hr0 : (0 : ℝ) ≤ 1.2 + (rand i - 0.5) * 0.3 := by linarith
  have hsq : (fallbackPoint count rand i).x ^ 2 + (fallbackPoint count rand i).y ^ 2 +
      (fallbackPoint count rand i).z ^ 2 = (1.2 + (rand i - 0.5) * 0.3) ^ 2 := by
    simp only [fallbackPoint]
    have hphi := Real.sin_sq_add_cos_sq (Real.arccos (1 - 2 * ((i : ℝ) + 0.5) / (count : ℝ)))
    have hth := Real.sin_sq_add_cos_sq (Real.pi * (1 + Real.sqrt 5) * (i : ℝ))
    linear_combination ((1.2 + (rand i - 0.5) * 0.3) ^ 2 *
        Real.sin (Real.arccos (1 - 2 * ((i : ℝ) + 0.5) / (count : ℝ))) ^ 2) * hth +
      (1.2 + (rand i - 0.5) * 0.3) ^ 2 * hphi
  have hs : Real.sqrt ((fallbackPoint count rand i).x ^ 2 + (fallbackPoint count rand i).y ^ 2 +
      (fallbackPoint count rand i).z ^ 2) = 1.2 + (rand i - 0.5) * 0.3 := by
    rw [hsq]
    exact Real.sqrt_sq hr0
  constructor
  · rw [hs]
    linarith [hr1]
  · rw [hs]
    linarith [hr2]

/-- Witness for C3 at count 1 and the zero random source. -/
theorem C3_fallback_count_and_radius_witness :
    0 < 1 ∧ (∀ i : ℕ, (0 : ℝ) ≤ (fun _ => (0 : ℝ)) i ∧ (fun _ => (0 : ℝ)) i < 1) ∧
      ((generateFallbackSphere 1 (fun _ => (0 : ℝ))).length = 1 ∧
        ∀ p ∈ generateFallbackSphere 1 (fun _ => (0 : ℝ)),
          0.85 * 1.2 ≤ Real.sqrt (p.x ^ 2 + p.y ^ 2 + p.z ^ 2) ∧
            Real.sqrt (p.x ^ 2 + p.y ^ 2 + p.z ^ 2) ≤ 1.15 * 1.2) :=
  ⟨Nat.one_pos, fun i => ⟨le_refl 0, by norm_num⟩,
    C3_fallback_count_and_radius 1 (fun _ => (0 : ℝ)) Nat.one_pos
      (fun i => ⟨le_refl 0, by norm_num⟩)⟩

-- ---------------------------------------------------------------------
-- Claim C6
-- ---------------------------------------------------------------------

/-- C6: the three load-failure kinds of useModelPositions (unsupported
extension, loader failure, successful load with no position data) all
log a warning and substitute the fallback sphere, which is nonempty, so
no path leaves the renderer without a usable point set. -/
theorem C6_load_failures_fall_back (path : String) (particleCount : ℕ)
    (rand sphereRand : ℕ → ℝ) (outcome : LoadOutcome) (hc : 0 < particleCount) :
    (extOf path ∉ supportedExts →
      useModelPositions (some path) particleCount rand sphereRand outcome =
        ⟨true, false, generateFallbackSphere particleCount sphereRand⟩) ∧
      (extOf path ∈ supportedExts →
        useModelPositions (some path) particleCount rand sphereRand LoadOutcome.failure =
          ⟨true, true, generateFallbackSphere particleCount sphereRand⟩) ∧
      (extOf path ∈ supportedExts →
        useModelPositions (some path) particleCount rand sphereRand
            (LoadOutcome.success []) =
          ⟨true, true, generateFallbackSphere particleCount sphereRand⟩) ∧
      0 < (generateFallbackSphere particleCount sphereRand).length := by
  refine ⟨?_, ?_, ?_, ?_⟩
  · intro h
    simp only [useModelPositions]
    rw [if_neg h]
  · intro h
    simp only [useModelPositions]
    rw [if_pos h]
  · intro h
    simp only [useModelPositions]
    rw [if_pos h]
    simp
  · simpa [generateFallbackSphere] using hc

/-- Witness for C6 at a path with unsupported extension, count 7, the
failing loader outcome. -/
theorem C6_load_failures_fall_back_witness :
    0 < 7 ∧
      ((extOf ("model.xyz") ∉ supportedExts →
        useModelPositions (some ("model.xyz")) 7 (fun _ => (0 : ℝ)) (fun _ => (0 : ℝ))
            LoadOutcome.failure =
          ⟨true, false, generateFallbackSphere 7 (fun _ => (0 : ℝ))⟩) ∧
        (extOf ("model.xyz") ∈ supportedExts →
          useModelPositions (some ("model.xyz")) 7 (fun _ => (0 : ℝ)) (fun _ => (0 : ℝ))
              LoadOutcome.failure =
            ⟨true, true, generateFallbackSphere 7 (fun _ => (0 : ℝ))⟩) ∧
        (extOf ("model.xyz") ∈ supportedExts →
          useModelPositions (some ("model.xyz")) 7 (fun _ => (0 : ℝ)) (fun _ => (0 : ℝ))
              (LoadOutcome.success []) =
            ⟨true, true, generateFallbackSphere 7 (fun _ => (0 : ℝ))⟩) ∧
        0 < (generateFallbackSphere 7 (fun _ => (0 : ℝ))).length) :=
  ⟨by norm_num,
    C6_load_failures_fall_back ("model.xyz") 7 (fun _ => (0 : ℝ)) (fun _ => (0 : ℝ))
      LoadOutcome.failure (by norm_num)⟩

-- ---------------------------------------------------------------------
-- Claim C7
-- ---------------------------------------------------------------------

/-- C7: with no model path, useModelPositions reaches the ready state
with exactly particleCount fallback-sphere points and never dispatches a
loader. -/
theorem C7_no_model_path_fallback (particleCount : ℕ) (rand sphereRand : ℕ → ℝ)
    (outcome : LoadOutcome) :
    useModelPositions none particleCount rand sphereRand outcome =
        ⟨false, false, generateFallbackSphere particleCount sphereRand⟩ ∧
      (useModelPositions none particleCount rand sphereRand outcome).dispatched = false ∧
      (useModelPositions none particleCount rand sphereRand outcome).positions.length =
        particleCount := by
  refine ⟨rfl, rfl, ?_⟩
  show (generateFallbackSphere particleCount sphereRand).length = particleCount
  simp [generateFallbackSphere]
